import Mathlib

/-!
Shallow embedding of the GraphQL subscription event bus
(`server/graphql/subscriptions/event_bus.py`).

Modelling conventions:
* `asyncio.Queue` is a FIFO `List` (head = oldest element); `put_nowait`
  appends at the back and raises `QueueFull` when `0 < maxsize` and
  `maxsize <= qsize` (an `asyncio.Queue` with `maxsize <= 0` is unbounded).
* Python dictionaries are modelled as association lists that preserve
  insertion order; key assignment replaces in place or appends, `del`
  removes the key.
* The registry dictionaries (`_global_subscriptions` and
  `_subscriptions[event_type]`) store references to `Subscription`
  objects.  The heap of subscription objects is modelled as one
  association list `subs_by_id` keyed by subscription id, and the
  registry buckets store only the id lists (the dictionaries' key sets).
  This represents every state in which distinct live subscription
  objects have distinct ids, which holds whenever ids are generated by
  the bus; states where a caller-supplied duplicate id makes two
  distinct objects share an id are represented by the last writer's
  object, matching the per-bucket replacement the Python dicts perform.
* `uuid.uuid4()` is modelled as drawing from a fresh counter `next_id`
  (ids are abstract tokens compared only for equality); the ghost field
  `issued` records every id the generator has handed out.
* `datetime.utcnow()` values are natural-number timestamps passed
  explicitly (`now`) at each operation that reads the clock.
* One iteration of the `_event_generator` loop (one consumer pull) is
  `consumerPull`: `await queue.get()` on an empty queue suspends, which
  the model records as `PullStep.blocked`; the Python generator is an
  unconditional `while True` loop, so no pull ever ends the sequence.
-/

namespace EventBus

/-- The `EventType` enumeration from the source. -/
inductive EventType where
  | CREATED
  | UPDATED
  | DELETED
  | STATUS_CHANGED
  | BATCH_OPERATION
deriving DecidableEq, Repr

/-- Members of the `EventType` enum in definition order (the iteration
order of `self._subscriptions`, a dict keyed by the enum). -/
def allKinds : List EventType :=
  [EventType.CREATED, EventType.UPDATED, EventType.DELETED,
   EventType.STATUS_CHANGED, EventType.BATCH_OPERATION]

/-- Values stored in the free-form `metadata` dictionaries; a Python
`None` value is `Option.none`. -/
abbrev Val := Option String

/-- Python `dict.get(key)`: the stored value if the key is present,
`None` otherwise (the stored value is itself a `Val`, so a stored
`None` and a missing key both yield `none`, as in Python). -/
def pyGet (m : List (String × Val)) (k : String) : Val :=
  match m with
  | [] => none
  | (k1, v) :: rest => if k1 = k then v else pyGet rest k

/-- The event dataclass (`{{ PrefixName }}Event`).  The payload field
`entity_data` is an abstract snapshot never inspected by the bus. -/
structure PEvent where
  event_id : String
  event_type : EventType
  entity_id : Option String
  entity_data : Option String
  timestamp : Nat
  metadata : List (String × Val)
  user_id : Option String
deriving DecidableEq, Repr

/-- The recognised keys of the `filter_criteria` dictionary
(`Dict[str, Any]`); an absent key is `none`.  `entity_ids` elements and
the `user_id` value may themselves be Python `None`, hence the nested
`Option`. -/
structure FilterCriteria where
  event_types : Option (List EventType)
  entity_ids : Option (List (Option String))
  user_id : Option (Option String)
  metadata : Option (List (String × Val))
deriving DecidableEq, Repr

/-- The empty criteria dictionary `{}` (the `subscribe` default). -/
def emptyCriteria : FilterCriteria :=
  { event_types := none, entity_ids := none, user_id := none, metadata := none }

/-- `PEvent.matches_filter`: each present key must accept the event,
checked in source order with early return on failure (`&&` below
short-circuits exactly like the source's sequential returns). -/
def matches_filter (e : PEvent) (fc : FilterCriteria) : Bool :=
  (match fc.event_types with
   | some kinds => decide (e.event_type ∈ kinds)
   | none => true)
  && (match fc.entity_ids with
   | some ids => decide (e.entity_id ∈ ids)
   | none => true)
  && (match fc.user_id with
   | some u => decide (e.user_id = u)
   | none => true)
  && (match fc.metadata with
   | some m => m.all (fun p => decide (pyGet e.metadata p.1 = p.2))
   | none => true)

/-- The `Subscription` dataclass. -/
structure Subscription where
  subscription_id : Nat
  queue : List PEvent
  filter_criteria : FilterCriteria
  created_at : Nat
  last_activity : Nat
deriving DecidableEq, Repr

/-- `Subscription.update_activity`. -/
def Subscription.update_activity (sub : Subscription) (now : Nat) : Subscription :=
  { sub with last_activity := now }

/-- Lookup in an insertion-ordered dictionary (association list). -/
def dictGet (l : List (Nat × Subscription)) (k : Nat) : Option Subscription :=
  match l with
  | [] => none
  | (k1, v) :: rest => if k1 = k then some v else dictGet rest k

/-- Python dict assignment `d[k] = v`: replace in place when the key is
present, append otherwise. -/
def dictSet (l : List (Nat × Subscription)) (k : Nat) (v : Subscription) :
    List (Nat × Subscription) :=
  match l with
  | [] => [(k, v)]
  | (k1, v1) :: rest =>
    if k1 = k then (k, v) :: rest else (k1, v1) :: dictSet rest k v

/-- Key-set effect of dict assignment on a bucket: a present key stays
in place, a new key is appended. -/
def keyInsert (l : List Nat) (k : Nat) : List Nat :=
  if k ∈ l then l else l ++ [k]

/-- Key-set effect of `del d[k]` on a bucket (keys are unique, so
filtering removes exactly the one entry; on a bucket not holding `k`
it is the identity). -/
def keyRemove (l : List Nat) (k : Nat) : List Nat :=
  l.filter (fun x => decide (x ≠ k))

/-- The `for event_type in event_types` registration loop of
`subscribe`: add the id to the bucket of every listed kind. -/
def registerKinds (sid : Nat) : List EventType → (EventType → List Nat) →
    EventType → List Nat
  | [], f => f
  | et :: rest, f =>
    registerKinds sid rest (fun k => if k = et then keyInsert (f k) sid else f k)

/-- State of a `{{ PrefixName }}EventBus` instance.  `subs_by_id` is the
heap of live subscription objects; `global_ids` and `kind_ids` are the
key sets of `_global_subscriptions` and `_subscriptions[·]`.  `next_id`
and `issued` are the ghost model of `uuid.uuid4()` generation. -/
structure BusState where
  max_queue_size : Nat
  cleanup_interval : Nat
  running : Bool
  global_ids : List Nat
  kind_ids : EventType → List Nat
  subs_by_id : List (Nat × Subscription)
  next_id : Nat
  issued : List Nat
  events_published : Nat
  subscriptions_created : Nat
  subscriptions_cleaned : Nat
  total_deliveries : Nat

/-- `__init__(max_queue_size, cleanup_interval)` (source defaults
100 and 300). -/
def mkBus (max_queue_size cleanup_interval : Nat) : BusState :=
  { max_queue_size := max_queue_size
    cleanup_interval := cleanup_interval
    running := false
    global_ids := []
    kind_ids := fun _ => []
    subs_by_id := []
    next_id := 0
    issued := []
    events_published := 0
    subscriptions_created := 0
    subscriptions_cleaned := 0
    total_deliveries := 0 }

/-- `start()`: set running (spawning the reaper task has no effect on
the modelled state; calling while already running is a no-op). -/
def start (s : BusState) : BusState :=
  { s with running := true }

/-- Whether `sid` is registered in any bucket (global or any kind). -/
def registeredB (s : BusState) (sid : Nat) : Bool :=
  decide (sid ∈ s.global_ids) || allKinds.any (fun k => decide (sid ∈ s.kind_ids k))

/-- `subscribe(event_types, filter_criteria, subscription_id)` at clock
time `now`; returns the subscription id and the new state.  A `none`
`subscription_id` draws a fresh id from the ghost counter (modelling
`uuid.uuid4()`). -/
def subscribe (s : BusState) (event_types : Option (List EventType))
    (filter_criteria : Option FilterCriteria) (subscription_id : Option Nat)
    (now : Nat) : Nat × BusState :=
  let sid := subscription_id.getD s.next_id
  let fc := filter_criteria.getD emptyCriteria
  let sub : Subscription :=
    { subscription_id := sid, queue := [], filter_criteria := fc,
      created_at := now, last_activity := now }
  let s1 : BusState :=
    { s with
      subs_by_id := dictSet s.subs_by_id sid sub
      next_id := if subscription_id.isNone then s.next_id + 1 else s.next_id
      issued := if subscription_id.isNone then sid :: s.issued else s.issued }
  let s2 : BusState :=
    match event_types with
    | none => { s1 with global_ids := keyInsert s1.global_ids sid }
    | some ets => { s1 with kind_ids := registerKinds sid ets s1.kind_ids }
  (sid, { s2 with subscriptions_created := s2.subscriptions_created + 1 })

/-- `_deliver_event(event, subscription)`: `put_nowait` appends when the
queue has room and returns 1; on `QueueFull` the event is dropped for
this subscriber and 0 is returned; no exception escapes. -/
def deliver_event (s : BusState) (event : PEvent) (sid : Nat) : Nat × BusState :=
  match dictGet s.subs_by_id sid with
  | none => (0, s)
  | some sub =>
    if 0 < s.max_queue_size ∧ s.max_queue_size ≤ sub.queue.length then
      (0, s)
    else
      (1, { s with subs_by_id :=
              dictSet s.subs_by_id sid { sub with queue := sub.queue ++ [event] } })

/-- One `for subscription in bucket.values()` delivery loop of
`publish`: filter check, then non-blocking delivery, summing the
per-subscription results. -/
def deliverTo (event : PEvent) : List Nat → BusState → Nat × BusState
  | [], s => (0, s)
  | sid :: rest, s =>
    match dictGet s.subs_by_id sid with
    | none => deliverTo event rest s
    | some sub =>
      if matches_filter event sub.filter_criteria then
        let r1 := deliver_event s event sid
        let r2 := deliverTo event rest r1.2
        (r1.1 + r2.1, r2.2)
      else
        deliverTo event rest s

/-- `publish(event)`: a non-running bus drops the event and returns 0;
otherwise deliver to the global bucket, then to the bucket of
`event.event_type`, then bump `events_published` (once per call) and
`total_deliveries` (by the delivered count). -/
def publish (s : BusState) (event : PEvent) : Nat × BusState :=
  if s.running then
    let r1 := deliverTo event s.global_ids s
    let r2 := deliverTo event (r1.2.kind_ids event.event_type) r1.2
    let delivered := r1.1 + r2.1
    (delivered,
      { r2.2 with
        events_published := r2.2.events_published + 1
        total_deliveries := r2.2.total_deliveries + delivered })
  else
    (0, s)

/-- `_cleanup_subscription(subscription_id)`: delete the id from the
global bucket and from every kind bucket; if it was found anywhere,
count one cleaned subscription.  The heap entry is untouched (Python
only deletes dictionary references; the object survives while its
generator holds it). -/
def cleanup_subscription (s : BusState) (sid : Nat) : Bool × BusState :=
  let found := registeredB s sid
  let s1 : BusState :=
    { s with
      global_ids := keyRemove s.global_ids sid
      kind_ids := fun k => keyRemove (s.kind_ids k) sid }
  if found then
    (true, { s1 with subscriptions_cleaned := s1.subscriptions_cleaned + 1 })
  else
    (false, s1)

/-- `unsubscribe(subscription_id)`. -/
def unsubscribe (s : BusState) (sid : Nat) : Bool × BusState :=
  cleanup_subscription s sid

/-- The `for sub_id in ids: await self._cleanup_subscription(sub_id)`
loops of `_cleanup_all_subscriptions` and
`_cleanup_stale_subscriptions`. -/
def cleanupFold : List Nat → BusState → BusState
  | [], s => s
  | sid :: rest, s => cleanupFold rest (cleanup_subscription s sid).2

/-- The `all_ids` list of `_cleanup_all_subscriptions`: the global
bucket's keys, then each kind bucket's keys in enum order. -/
def allRegisteredIds (s : BusState) : List Nat :=
  s.global_ids ++ allKinds.foldr (fun k acc => s.kind_ids k ++ acc) []

/-- `_cleanup_all_subscriptions()`. -/
def cleanup_all_subscriptions (s : BusState) : BusState :=
  cleanupFold (allRegisteredIds s) s

/-- `stop()`: clear the running flag, cancel the reaper (no state
effect), then clean up every subscription. -/
def stop (s : BusState) : BusState :=
  cleanup_all_subscriptions { s with running := false }

/-- The staleness test of `_cleanup_stale_subscriptions`:
`subscription.last_activity.timestamp() < utcnow().timestamp() -
cleanup_interval * 2` (computed over the integers, as Python uses
unbounded reals here).  A registry id with no heap entry (impossible in
reachable states) is treated as not stale. -/
def isStaleB (s : BusState) (now : Nat) (sid : Nat) : Bool :=
  match dictGet s.subs_by_id sid with
  | some sub =>
    decide ((sub.last_activity : Int) < (now : Int) - (s.cleanup_interval : Int) * 2)
  | none => false

/-- The `stale_ids` list collected by `_cleanup_stale_subscriptions`:
stale ids of the global bucket, then of each kind bucket in enum
order (an id may appear several times when registered under several
kinds, exactly as in the source). -/
def staleIds (s : BusState) (now : Nat) : List Nat :=
  s.global_ids.filter (isStaleB s now) ++
    allKinds.foldr (fun k acc => (s.kind_ids k).filter (isStaleB s now) ++ acc) []

/-- `_cleanup_stale_subscriptions()` at clock time `now` (one reaper
pass). -/
def cleanup_stale_subscriptions (s : BusState) (now : Nat) : BusState :=
  cleanupFold (staleIds s now) s

/-- Observable outcome of one consumer pull on the event sequence. -/
inductive PullStep where
  | yields (e : PEvent) (s : BusState)
  | blocked

/-- One iteration of the `_event_generator` loop at clock time `now`:
`await queue.get()` suspends on an empty queue (`blocked`); otherwise
the oldest event is removed, `update_activity()` runs, and the event is
yielded.  The loop is `while True`: no pull ever terminates the
sequence by itself. -/
def consumerPull (s : BusState) (sid : Nat) (now : Nat) : PullStep :=
  match dictGet s.subs_by_id sid with
  | none => PullStep.blocked
  | some sub =>
    match sub.queue with
    | [] => PullStep.blocked
    | e :: rest =>
      let sub1 := Subscription.update_activity { sub with queue := rest } now
      PullStep.yields e { s with subs_by_id := dictSet s.subs_by_id sid sub1 }

/-! ### Basic lemmas about the dictionary model -/

theorem mem_keyInsert {l : List Nat} {k x : Nat} :
    x ∈ keyInsert l k ↔ x ∈ l ∨ x = k := by
  unfold keyInsert
  split
  case isTrue h =>
    constructor
    · exact fun hx => Or.inl hx
    · rintro (hx | rfl)
      · exact hx
      · exact h
  case isFalse h => simp

theorem mem_keyRemove {l : List Nat} {k x : Nat} :
    x ∈ keyRemove l k ↔ x ∈ l ∧ x ≠ k := by
  unfold keyRemove
  simp

theorem keyRemove_eq_self {l : List Nat} {k : Nat} (h : k ∉ l) :
    keyRemove l k = l := by
  unfold keyRemove
  apply List.filter_eq_self.2
  intro x hx
  simp only [decide_eq_true_eq]
  rintro rfl
  exact h hx

theorem dictGet_set_self {l : List (Nat × Subscription)} {k : Nat} {v : Subscription} :
    dictGet (dictSet l k v) k = some v := by
  induction l with
  | nil => simp [dictGet, dictSet]
  | cons hd tl ih =>
    obtain ⟨k1, v1⟩ := hd
    by_cases h : k1 = k
    · subst h
      simp [dictGet, dictSet]
    · simp [dictGet, dictSet, h, ih]

theorem dictGet_set_ne {l : List (Nat × Subscription)} {k k1 : Nat} {v : Subscription}
    (h : k1 ≠ k) : dictGet (dictSet l k v) k1 = dictGet l k1 := by
  have hk : ¬ k = k1 := fun hh => h hh.symm
  induction l with
  | nil => simp [dictGet, dictSet, hk]
  | cons hd tl ih =>
    obtain ⟨k2, v2⟩ := hd
    by_cases h2 : k2 = k
    · subst h2
      simp [dictGet, dictSet, hk]
    · simp [dictGet, dictSet, h2, ih]

theorem mem_allKinds (k : EventType) : k ∈ allKinds := by
  cases k <;> simp [allKinds]

theorem registeredB_true_iff {s : BusState} {x : Nat} :
    registeredB s x = true ↔ x ∈ s.global_ids ∨ ∃ k, x ∈ s.kind_ids k := by
  unfold registeredB
  simp only [Bool.or_eq_true, decide_eq_true_eq, List.any_eq_true]
  constructor
  · rintro (h | ⟨k, _, hk⟩)
    · exact Or.inl h
    · exact Or.inr ⟨k, hk⟩
  · rintro (h | ⟨k, hk⟩)
    · exact Or.inl h
    · exact Or.inr ⟨k, mem_allKinds k, hk⟩

theorem mem_registerKinds {sid x : Nat} {ets : List EventType}
    {f : EventType → List Nat} {k : EventType} :
    x ∈ registerKinds sid ets f k ↔ x ∈ f k ∨ (x = sid ∧ k ∈ ets) := by
  induction ets generalizing f with
  | nil => simp [registerKinds]
  | cons et rest ih =>
    rw [registerKinds, ih]
    by_cases hk : k = et
    · subst hk
      simp [mem_keyInsert]
      tauto
    · simp only [if_neg hk, List.mem_cons]
      constructor
      · rintro (hx | ⟨rfl, hr⟩)
        · exact Or.inl hx
        · exact Or.inr ⟨rfl, Or.inr hr⟩
      · rintro (hx | ⟨rfl, (hke | hr)⟩)
        · exact Or.inl hx
        · exact absurd hke hk
        · exact Or.inr ⟨rfl, hr⟩

/-! ### Frame lemmas: delivery touches only the subscription heap -/

/-- Everything except the heap of subscription objects is preserved. -/
def SameFrame (s t : BusState) : Prop :=
  t.max_queue_size = s.max_queue_size ∧
  t.cleanup_interval = s.cleanup_interval ∧
  t.running = s.running ∧
  t.global_ids = s.global_ids ∧
  (∀ k, t.kind_ids k = s.kind_ids k) ∧
  t.next_id = s.next_id ∧
  t.issued = s.issued ∧
  t.events_published = s.events_published ∧
  t.subscriptions_created = s.subscriptions_created ∧
  t.subscriptions_cleaned = s.subscriptions_cleaned ∧
  t.total_deliveries = s.total_deliveries

theorem sameFrame_refl (s : BusState) : SameFrame s s := by
  unfold SameFrame
  refine ⟨rfl, rfl, rfl, rfl, fun _ => rfl, rfl, rfl, rfl, rfl, rfl, rfl⟩

theorem sameFrame_trans {s t u : BusState} (h1 : SameFrame s t) (h2 : SameFrame t u) :
    SameFrame s u := by
  obtain ⟨a1, a2, a3, a4, a5, a6, a7, a8, a9, a10, a11⟩ := h1
  obtain ⟨b1, b2, b3, b4, b5, b6, b7, b8, b9, b10, b11⟩ := h2
  refine ⟨b1.trans a1, b2.trans a2, b3.trans a3, b4.trans a4,
    fun k => (b5 k).trans (a5 k), b6.trans a6, b7.trans a7, b8.trans a8,
    b9.trans a9, b10.trans a10, b11.trans a11⟩

theorem deliver_event_frame (s : BusState) (e : PEvent) (sid : Nat) :
    SameFrame s (deliver_event s e sid).2 := by
  unfold deliver_event
  split
  · exact sameFrame_refl s
  · split
    · exact sameFrame_refl s
    · exact ⟨rfl, rfl, rfl, rfl, fun _ => rfl, rfl, rfl, rfl, rfl, rfl, rfl⟩

theorem deliver_event_subs_ne {s : BusState} {e : PEvent} {sid sid1 : Nat}
    (h : sid1 ≠ sid) :
    dictGet (deliver_event s e sid).2.subs_by_id sid1 = dictGet s.subs_by_id sid1 := by
  unfold deliver_event
  split
  · rfl
  · split
    · rfl
    · exact dictGet_set_ne h

theorem deliverTo_frame (e : PEvent) (ids : List Nat) (s : BusState) :
    SameFrame s (deliverTo e ids s).2 := by
  induction ids generalizing s with
  | nil => exact sameFrame_refl s
  | cons sid rest ih =>
    unfold deliverTo
    split
    · exact ih s
    · split
      · exact sameFrame_trans (deliver_event_frame s e sid) (ih _)
      · exact ih s

theorem deliverTo_subs_not_mem {e : PEvent} {ids : List Nat} {s : BusState} {sid : Nat}
    (h : sid ∉ ids) :
    dictGet (deliverTo e ids s).2.subs_by_id sid = dictGet s.subs_by_id sid := by
  induction ids generalizing s with
  | nil => rfl
  | cons x rest ih =>
    have hx : sid ≠ x := fun hh => h (hh ▸ List.mem_cons_self x rest)
    have hrest : sid ∉ rest := fun hh => h (List.mem_cons_of_mem x hh)
    unfold deliverTo
    split
    · exact ih hrest
    · split
      · rw [ih hrest, deliver_event_subs_ne hx]
      · exact ih hrest

theorem deliver_event_full {s : BusState} {e : PEvent} {sid : Nat} {sub : Subscription}
    (hget : dictGet s.subs_by_id sid = some sub)
    (hfull : 0 < s.max_queue_size ∧ s.max_queue_size ≤ sub.queue.length) :
    deliver_event s e sid = (0, s) := by
  unfold deliver_event
  simp only [hget]
  rw [if_pos hfull]

theorem deliver_event_room {s : BusState} {e : PEvent} {sid : Nat} {sub : Subscription}
    (hget : dictGet s.subs_by_id sid = some sub)
    (hroom : ¬ (0 < s.max_queue_size ∧ s.max_queue_size ≤ sub.queue.length)) :
    deliver_event s e sid =
      (1, { s with subs_by_id :=
              dictSet s.subs_by_id sid { sub with queue := sub.queue ++ [e] } }) := by
  unfold deliver_event
  simp only [hget]
  rw [if_neg hroom]

theorem deliverTo_no_match {e : PEvent} {ids : List Nat} {s : BusState} {sid : Nat}
    {sub : Subscription}
    (hget : dictGet s.subs_by_id sid = some sub)
    (hm : matches_filter e sub.filter_criteria = false) :
    dictGet (deliverTo e ids s).2.subs_by_id sid = some sub := by
  induction ids generalizing s with
  | nil => exact hget
  | cons x rest ih =>
    unfold deliverTo
    split
    · exact ih hget
    · rename_i subx heq
      by_cases hx : sid = x
      · subst hx
        rw [hget] at heq
        injection heq with heq2
        subst heq2
        rw [if_neg (by simp [hm])]
        exact ih hget
      · split
        · have hget2 : dictGet (deliver_event s e x).2.subs_by_id sid = some sub := by
            rw [deliver_event_subs_ne hx]
            exact hget
          exact ih hget2
        · exact ih hget

theorem deliverTo_full {e : PEvent} {ids : List Nat} {s : BusState} {sid : Nat}
    {sub : Subscription}
    (hget : dictGet s.subs_by_id sid = some sub)
    (hfull : 0 < s.max_queue_size ∧ s.max_queue_size ≤ sub.queue.length) :
    dictGet (deliverTo e ids s).2.subs_by_id sid = some sub := by
  induction ids generalizing s with
  | nil => exact hget
  | cons x rest ih =>
    unfold deliverTo
    split
    · exact ih hget hfull
    · rename_i subx heq
      by_cases hx : sid = x
      · subst hx
        rw [hget] at heq
        injection heq with heq2
        subst heq2
        split
        · rw [deliver_event_full hget hfull]
          exact ih hget hfull
        · exact ih hget hfull
      · split
        · have frame := deliver_event_frame s e x
          have hget2 : dictGet (deliver_event s e x).2.subs_by_id sid = some sub := by
            rw [deliver_event_subs_ne hx]
            exact hget
          have hfull2 : 0 < (deliver_event s e x).2.max_queue_size ∧
              (deliver_event s e x).2.max_queue_size ≤ sub.queue.length := by
            rw [frame.1]
            exact hfull
          exact ih hget2 hfull2
        · exact ih hget hfull

theorem deliverTo_count_one {e : PEvent} {ids : List Nat} {s : BusState} {sid : Nat}
    {sub : Subscription}
    (hc : ids.count sid = 1)
    (hget : dictGet s.subs_by_id sid = some sub)
    (hm : matches_filter e sub.filter_criteria = true)
    (hroom : ¬ (0 < s.max_queue_size ∧ s.max_queue_size ≤ sub.queue.length)) :
    dictGet (deliverTo e ids s).2.subs_by_id sid
      = some { sub with queue := sub.queue ++ [e] } := by
  induction ids generalizing s with
  | nil => simp at hc
  | cons x rest ih =>
    by_cases hx : sid = x
    · subst hx
      have hrest : rest.count sid = 0 := by
        have h1 : (sid :: rest).count sid = rest.count sid + 1 := List.count_cons_self sid rest
        omega
      have hnm : sid ∉ rest := List.count_eq_zero.1 hrest
      unfold deliverTo
      simp only [hget]
      rw [if_pos hm]
      simp only [deliver_event_room hget hroom]
      rw [deliverTo_subs_not_mem hnm]
      exact dictGet_set_self
    · have hxs : ¬ x = sid := fun hh => hx hh.symm
      have hc2 : rest.count sid = 1 := by
        have h1 : (x :: rest).count sid = rest.count sid := by
          simp [List.count_cons, hxs]
        omega
      unfold deliverTo
      split
      · exact ih hc2 hget hroom
      · rename_i subx heq
        split
        · have frame := deliver_event_frame s e x
          have hget2 : dictGet (deliver_event s e x).2.subs_by_id sid = some sub := by
            rw [deliver_event_subs_ne hx]
            exact hget
          have hroom2 : ¬ (0 < (deliver_event s e x).2.max_queue_size ∧
              (deliver_event s e x).2.max_queue_size ≤ sub.queue.length) := by
            rw [frame.1]
            exact hroom
          exact ih hc2 hget2 hroom2
        · exact ih hc2 hget hroom

/-- Fields of a subscription entry other than its queue (identity,
criteria, timestamps), used to state that delivery never touches
anything but the queue. -/
def subMeta (o : Option Subscription) : Option (Nat × FilterCriteria × Nat × Nat) :=
  o.map (fun sub => (sub.subscription_id, sub.filter_criteria, sub.created_at, sub.last_activity))

theorem deliver_event_none {s : BusState} {e : PEvent} {x : Nat}
    (hget : dictGet s.subs_by_id x = none) :
    deliver_event s e x = (0, s) := by
  unfold deliver_event
  rw [hget]

theorem deliver_event_meta (s : BusState) (e : PEvent) (x sid : Nat) :
    subMeta (dictGet (deliver_event s e x).2.subs_by_id sid)
      = subMeta (dictGet s.subs_by_id sid) := by
  cases hget : dictGet s.subs_by_id x with
  | none => rw [deliver_event_none hget]
  | some sub =>
    by_cases hfull : 0 < s.max_queue_size ∧ s.max_queue_size ≤ sub.queue.length
    · rw [deliver_event_full hget hfull]
    · rw [deliver_event_room hget hfull]
      by_cases hx : sid = x
      · subst hx
        simp [dictGet_set_self, hget, subMeta]
      · simp [dictGet_set_ne hx]

theorem deliverTo_meta (e : PEvent) (ids : List Nat) (s : BusState) (sid : Nat) :
    subMeta (dictGet (deliverTo e ids s).2.subs_by_id sid)
      = subMeta (dictGet s.subs_by_id sid) := by
  induction ids generalizing s with
  | nil => rfl
  | cons x rest ih =>
    unfold deliverTo
    split
    · exact ih s
    · split
      · rw [ih _, deliver_event_meta]
      · exact ih s

/-! ### Publish-level lemmas -/

theorem publish_not_running {s : BusState} {e : PEvent} (h : s.running = false) :
    publish s e = (0, s) := by
  simp [publish, h]

theorem publish_registry (s : BusState) (e : PEvent) :
    (publish s e).2.global_ids = s.global_ids ∧
    (∀ k, (publish s e).2.kind_ids k = s.kind_ids k) ∧
    (publish s e).2.running = s.running ∧
    (publish s e).2.max_queue_size = s.max_queue_size ∧
    (publish s e).2.cleanup_interval = s.cleanup_interval ∧
    (publish s e).2.next_id = s.next_id ∧
    (publish s e).2.issued = s.issued ∧
    (publish s e).2.subscriptions_created = s.subscriptions_created ∧
    (publish s e).2.subscriptions_cleaned = s.subscriptions_cleaned := by
  by_cases h : s.running = true
  · unfold publish
    rw [if_pos h]
    have ft := sameFrame_trans (deliverTo_frame e s.global_ids s)
      (deliverTo_frame e ((deliverTo e s.global_ids s).2.kind_ids e.event_type)
        (deliverTo e s.global_ids s).2)
    obtain ⟨a1, a2, a3, a4, a5, a6, a7, a8, a9, a10, a11⟩ := ft
    exact ⟨a4, a5, a3, a1, a2, a6, a7, a9, a10⟩
  · have h2 : s.running = false := by
      cases hr : s.running
      · rfl
      · exact absurd hr h
    rw [publish_not_running h2]
    exact ⟨rfl, fun _ => rfl, rfl, rfl, rfl, rfl, rfl, rfl, rfl⟩

theorem publish_counts {s : BusState} {e : PEvent} (h : s.running = true) :
    (publish s e).2.events_published = s.events_published + 1 ∧
    (publish s e).2.total_deliveries = s.total_deliveries + (publish s e).1 := by
  unfold publish
  rw [if_pos h]
  have ft := sameFrame_trans (deliverTo_frame e s.global_ids s)
    (deliverTo_frame e ((deliverTo e s.global_ids s).2.kind_ids e.event_type)
      (deliverTo e s.global_ids s).2)
  obtain ⟨a1, a2, a3, a4, a5, a6, a7, a8, a9, a10, a11⟩ := ft
  constructor
  · exact congrArg (fun n => n + 1) a8
  · exact congrArg
      (fun n => n + ((deliverTo e s.global_ids s).1 +
        (deliverTo e ((deliverTo e s.global_ids s).2.kind_ids e.event_type)
          (deliverTo e s.global_ids s).2).1)) a11

theorem publish_subs_unregistered {s : BusState} {e : PEvent} {sid : Nat}
    (hg : sid ∉ s.global_ids) (hk : sid ∉ s.kind_ids e.event_type) :
    dictGet (publish s e).2.subs_by_id sid = dictGet s.subs_by_id sid := by
  by_cases h : s.running = true
  · unfold publish
    rw [if_pos h]
    have hkinds := (deliverTo_frame e s.global_ids s).2.2.2.2.1
    show dictGet (deliverTo e ((deliverTo e s.global_ids s).2.kind_ids e.event_type)
        (deliverTo e s.global_ids s).2).2.subs_by_id sid = dictGet s.subs_by_id sid
    rw [hkinds e.event_type, deliverTo_subs_not_mem hk, deliverTo_subs_not_mem hg]
  · have h2 : s.running = false := by
      cases hr : s.running
      · rfl
      · exact absurd hr h
    rw [publish_not_running h2]

theorem publish_delivers_once {s : BusState} {e : PEvent} {sid : Nat} {sub : Subscription}
    (h : s.running = true)
    (hc : (s.global_ids ++ s.kind_ids e.event_type).count sid = 1)
    (hget : dictGet s.subs_by_id sid = some sub)
    (hm : matches_filter e sub.filter_criteria = true)
    (hroom : ¬ (0 < s.max_queue_size ∧ s.max_queue_size ≤ sub.queue.length)) :
    dictGet (publish s e).2.subs_by_id sid
      = some { sub with queue := sub.queue ++ [e] } := by
  unfold publish
  rw [if_pos h]
  have frame1 := deliverTo_frame e s.global_ids s
  have hkinds := frame1.2.2.2.2.1 e.event_type
  have hmax := frame1.1
  rw [List.count_append] at hc
  show dictGet (deliverTo e ((deliverTo e s.global_ids s).2.kind_ids e.event_type)
      (deliverTo e s.global_ids s).2).2.subs_by_id sid
    = some { sub with queue := sub.queue ++ [e] }
  have hsplit : (s.kind_ids e.event_type).count sid = 0 ∧ s.global_ids.count sid = 1 ∨
      s.global_ids.count sid = 0 ∧ (s.kind_ids e.event_type).count sid = 1 := by
    omega
  rcases hsplit with ⟨h1, h2⟩ | ⟨h1, h2⟩
  · -- delivered in the global pass, absent from the kind bucket
    have hnk : sid ∉ s.kind_ids e.event_type := List.count_eq_zero.1 h1
    rw [hkinds, deliverTo_subs_not_mem hnk]
    exact deliverTo_count_one h2 hget hm hroom
  · -- absent from the global bucket, delivered in the kind pass
    have hng : sid ∉ s.global_ids := List.count_eq_zero.1 h1
    have hget1 : dictGet (deliverTo e s.global_ids s).2.subs_by_id sid = some sub := by
      rw [deliverTo_subs_not_mem hng]
      exact hget
    have hroom1 : ¬ (0 < (deliverTo e s.global_ids s).2.max_queue_size ∧
        (deliverTo e s.global_ids s).2.max_queue_size ≤ sub.queue.length) := by
      rw [hmax]
      exact hroom
    rw [hkinds]
    exact deliverTo_count_one h2 hget1 hm hroom1

theorem publish_no_match {s : BusState} {e : PEvent} {sid : Nat} {sub : Subscription}
    (hget : dictGet s.subs_by_id sid = some sub)
    (hm : matches_filter e sub.filter_criteria = false) :
    dictGet (publish s e).2.subs_by_id sid = some sub := by
  by_cases h : s.running = true
  · unfold publish
    rw [if_pos h]
    show dictGet (deliverTo e ((deliverTo e s.global_ids s).2.kind_ids e.event_type)
        (deliverTo e s.global_ids s).2).2.subs_by_id sid = some sub
    exact deliverTo_no_match (deliverTo_no_match hget hm) hm
  · have h2 : s.running = false := by
      cases hr : s.running
      · rfl
      · exact absurd hr h
    rw [publish_not_running h2]
    exact hget

theorem publish_full {s : BusState} {e : PEvent} {sid : Nat} {sub : Subscription}
    (hget : dictGet s.subs_by_id sid = some sub)
    (hfull : 0 < s.max_queue_size ∧ s.max_queue_size ≤ sub.queue.length) :
    dictGet (publish s e).2.subs_by_id sid = some sub := by
  by_cases h : s.running = true
  · unfold publish
    rw [if_pos h]
    have hmax := (deliverTo_frame e s.global_ids s).1
    show dictGet (deliverTo e ((deliverTo e s.global_ids s).2.kind_ids e.event_type)
        (deliverTo e s.global_ids s).2).2.subs_by_id sid = some sub
    have hfull1 : 0 < (deliverTo e s.global_ids s).2.max_queue_size ∧
        (deliverTo e s.global_ids s).2.max_queue_size ≤ sub.queue.length := by
      rw [hmax]
      exact hfull
    exact deliverTo_full (deliverTo_full hget hfull) hfull1
  · have h2 : s.running = false := by
      cases hr : s.running
      · rfl
      · exact absurd hr h
    rw [publish_not_running h2]
    exact hget

theorem publish_meta (s : BusState) (e : PEvent) (sid : Nat) :
    subMeta (dictGet (publish s e).2.subs_by_id sid)
      = subMeta (dictGet s.subs_by_id sid) := by
  by_cases h : s.running = true
  · unfold publish
    rw [if_pos h]
    show subMeta (dictGet (deliverTo e ((deliverTo e s.global_ids s).2.kind_ids e.event_type)
        (deliverTo e s.global_ids s).2).2.subs_by_id sid) = subMeta (dictGet s.subs_by_id sid)
    rw [deliverTo_meta, deliverTo_meta]
  · have h2 : s.running = false := by
      cases hr : s.running
      · rfl
      · exact absurd hr h
    rw [publish_not_running h2]

/-! ### Cleanup and unsubscribe lemmas -/

theorem cleanup_fst (s : BusState) (sid : Nat) :
    (cleanup_subscription s sid).1 = registeredB s sid := by
  unfold cleanup_subscription
  by_cases h : registeredB s sid = true
  · simp [h]
  · simp at h
    simp [h]

theorem cleanup_global (s : BusState) (sid : Nat) :
    (cleanup_subscription s sid).2.global_ids = keyRemove s.global_ids sid := by
  unfold cleanup_subscription
  by_cases h : registeredB s sid = true
  · simp [h]
  · simp at h
    simp [h]

theorem cleanup_kind (s : BusState) (sid : Nat) (k : EventType) :
    (cleanup_subscription s sid).2.kind_ids k = keyRemove (s.kind_ids k) sid := by
  unfold cleanup_subscription
  by_cases h : registeredB s sid = true
  · simp [h]
  · simp at h
    simp [h]

theorem cleanup_subs (s : BusState) (sid : Nat) :
    (cleanup_subscription s sid).2.subs_by_id = s.subs_by_id := by
  unfold cleanup_subscription
  by_cases h : registeredB s sid = true
  · simp [h]
  · simp at h
    simp [h]

theorem cleanup_cleaned (s : BusState) (sid : Nat) :
    (cleanup_subscription s sid).2.subscriptions_cleaned
      = s.subscriptions_cleaned + (if registeredB s sid = true then 1 else 0) := by
  unfold cleanup_subscription
  by_cases h : registeredB s sid = true
  · simp [h]
  · simp at h
    simp [h]

theorem cleanup_stats (s : BusState) (sid : Nat) :
    (cleanup_subscription s sid).2.running = s.running ∧
    (cleanup_subscription s sid).2.max_queue_size = s.max_queue_size ∧
    (cleanup_subscription s sid).2.cleanup_interval = s.cleanup_interval ∧
    (cleanup_subscription s sid).2.next_id = s.next_id ∧
    (cleanup_subscription s sid).2.issued = s.issued ∧
    (cleanup_subscription s sid).2.events_published = s.events_published ∧
    (cleanup_subscription s sid).2.subscriptions_created = s.subscriptions_created ∧
    (cleanup_subscription s sid).2.total_deliveries = s.total_deliveries := by
  unfold cleanup_subscription
  by_cases h : registeredB s sid = true
  · simp [h]
  · simp at h
    simp [h]

theorem cleanup_not_registered {s : BusState} {sid : Nat}
    (h : registeredB s sid = false) :
    cleanup_subscription s sid = (false, s) := by
  have hnot : ¬ (sid ∈ s.global_ids ∨ ∃ k, sid ∈ s.kind_ids k) := by
    rw [← registeredB_true_iff]
    simp [h]
  push_neg at hnot
  have e1 : keyRemove s.global_ids sid = s.global_ids := keyRemove_eq_self hnot.1
  have e2 : (fun k => keyRemove (s.kind_ids k) sid) = s.kind_ids :=
    funext fun k => keyRemove_eq_self (hnot.2 k)
  unfold cleanup_subscription
  simp only [h, Bool.false_eq_true, if_false, e1, e2]

theorem registeredB_cleanup (s : BusState) (sid x : Nat) :
    registeredB (cleanup_subscription s sid).2 x
      = (registeredB s x && !decide (x = sid)) := by
  have hk := cleanup_kind s sid
  unfold registeredB
  rw [cleanup_global s sid]
  simp only [hk]
  by_cases hx : x = sid
  · subst hx
    simp [mem_keyRemove]
  · simp [mem_keyRemove, hx]

theorem cleanupFold_subs (ids : List Nat) (s : BusState) :
    (cleanupFold ids s).subs_by_id = s.subs_by_id := by
  induction ids generalizing s with
  | nil => rfl
  | cons i rest ih =>
    unfold cleanupFold
    rw [ih, cleanup_subs]

theorem cleanupFold_stats (ids : List Nat) (s : BusState) :
    (cleanupFold ids s).running = s.running ∧
    (cleanupFold ids s).max_queue_size = s.max_queue_size ∧
    (cleanupFold ids s).cleanup_interval = s.cleanup_interval ∧
    (cleanupFold ids s).next_id = s.next_id ∧
    (cleanupFold ids s).issued = s.issued ∧
    (cleanupFold ids s).events_published = s.events_published ∧
    (cleanupFold ids s).subscriptions_created = s.subscriptions_created ∧
    (cleanupFold ids s).total_deliveries = s.total_deliveries := by
  induction ids generalizing s with
  | nil => exact ⟨rfl, rfl, rfl, rfl, rfl, rfl, rfl, rfl⟩
  | cons i rest ih =>
    unfold cleanupFold
    obtain ⟨b1, b2, b3, b4, b5, b6, b7, b8⟩ := ih (cleanup_subscription s i).2
    obtain ⟨c1, c2, c3, c4, c5, c6, c7, c8⟩ := cleanup_stats s i
    exact ⟨b1.trans c1, b2.trans c2, b3.trans c3, b4.trans c4, b5.trans c5,
      b6.trans c6, b7.trans c7, b8.trans c8⟩

theorem mem_global_cleanupFold {ids : List Nat} {s : BusState} {x : Nat} :
    x ∈ (cleanupFold ids s).global_ids ↔ x ∈ s.global_ids ∧ x ∉ ids := by
  induction ids generalizing s with
  | nil => simp [cleanupFold]
  | cons i rest ih =>
    unfold cleanupFold
    rw [ih, cleanup_global, mem_keyRemove]
    simp only [List.mem_cons]
    constructor
    · rintro ⟨⟨hx, hne⟩, hr⟩
      exact ⟨hx, fun hh => hh.elim hne hr⟩
    · rintro ⟨hx, hn⟩
      exact ⟨⟨hx, fun hh => hn (Or.inl hh)⟩, fun hh => hn (Or.inr hh)⟩

theorem mem_kind_cleanupFold {ids : List Nat} {s : BusState} {x : Nat} {k : EventType} :
    x ∈ (cleanupFold ids s).kind_ids k ↔ x ∈ s.kind_ids k ∧ x ∉ ids := by
  induction ids generalizing s with
  | nil => simp [cleanupFold]
  | cons i rest ih =>
    unfold cleanupFold
    rw [ih, cleanup_kind, mem_keyRemove]
    simp only [List.mem_cons]
    constructor
    · rintro ⟨⟨hx, hne⟩, hr⟩
      exact ⟨hx, fun hh => hh.elim hne hr⟩
    · rintro ⟨hx, hn⟩
      exact ⟨⟨hx, fun hh => hn (Or.inl hh)⟩, fun hh => hn (Or.inr hh)⟩

theorem length_filter_split {l : List Nat} {p : Nat → Bool} {a : Nat}
    (hnd : l.Nodup) (ha : a ∈ l) :
    (l.filter p).length
      = (l.filter (fun x => p x && !decide (x = a))).length
        + (if p a = true then 1 else 0) := by
  induction l with
  | nil => cases ha
  | cons b rest ih =>
    have hnd2 : rest.Nodup := (List.nodup_cons.1 hnd).2
    by_cases hb : b = a
    · subst hb
      have hna : b ∉ rest := (List.nodup_cons.1 hnd).1
      have hcongr : rest.filter (fun x => p x && !decide (x = b)) = rest.filter p :=
        List.filter_congr (fun x hx => by
          have hxb : ¬ x = b := fun he => hna (he ▸ hx)
          simp [hxb])
      have hq : List.filter (fun x => p x && !decide (x = b)) (b :: rest)
          = List.filter (fun x => p x && !decide (x = b)) rest :=
        List.filter_cons_of_neg (by simp)
      cases hp : p b with
      | true =>
        rw [List.filter_cons_of_pos hp, hq, hcongr]
        simp [hp]
      | false =>
        rw [List.filter_cons_of_neg (by simp [hp]), hq, hcongr]
        simp [hp]
    · have ha2 : a ∈ rest := by
        rcases List.mem_cons.1 ha with h1 | h1
        · exact absurd h1.symm hb
        · exact h1
      have hrec := ih hnd2 ha2
      cases hp : p b with
      | true =>
        have hq : List.filter (fun x => p x && !decide (x = a)) (b :: rest)
            = b :: List.filter (fun x => p x && !decide (x = a)) rest :=
          List.filter_cons_of_pos (by simp [hp, hb])
        rw [List.filter_cons_of_pos hp, hq]
        simp only [List.length_cons]
        omega
      | false =>
        have hq : List.filter (fun x => p x && !decide (x = a)) (b :: rest)
            = List.filter (fun x => p x && !decide (x = a)) rest :=
          List.filter_cons_of_neg (by simp [hp])
        rw [List.filter_cons_of_neg (by simp [hp]), hq]
        exact hrec

theorem cleanupFold_cleaned (ids : List Nat) (s : BusState) :
    (cleanupFold ids s).subscriptions_cleaned
      = s.subscriptions_cleaned
        + ((ids.dedup).filter (registeredB s)).length := by
  induction ids generalizing s with
  | nil => simp [cleanupFold]
  | cons i rest ih =>
    unfold cleanupFold
    rw [ih, cleanup_cleaned]
    have hfil : (rest.dedup).filter (registeredB (cleanup_subscription s i).2)
        = (rest.dedup).filter (fun x => registeredB s x && !decide (x = i)) :=
      List.filter_congr (fun x _ => registeredB_cleanup s i x)
    rw [hfil]
    by_cases hi : i ∈ rest
    · rw [List.dedup_cons_of_mem hi]
      have hsplit := @length_filter_split (rest.dedup) (registeredB s) i
        (List.nodup_dedup rest) (List.mem_dedup.mpr hi)
      omega
    · rw [List.dedup_cons_of_not_mem hi]
      have hni : i ∉ rest.dedup := fun hh => hi (List.mem_dedup.1 hh)
      have hcongr : (rest.dedup).filter (fun x => registeredB s x && !decide (x = i))
          = (rest.dedup).filter (registeredB s) :=
        List.filter_congr (fun x hx => by
          have hxi : ¬ x = i := fun he => hni (he ▸ hx)
          simp [hxi])
      rw [hcongr]
      cases hp : registeredB s i with
      | true =>
        have hq : List.filter (registeredB s) (i :: rest.dedup)
            = i :: List.filter (registeredB s) rest.dedup :=
          List.filter_cons_of_pos hp
        rw [hq, if_pos (Eq.refl true)]
        simp only [List.length_cons]
        omega
      | false =>
        have hq : List.filter (registeredB s) (i :: rest.dedup)
            = List.filter (registeredB s) rest.dedup :=
          List.filter_cons_of_neg (by simp [hp])
        rw [hq, if_neg (by simp)]
        omega

/-! ### Stale-subscription, stop and miscellaneous helper lemmas -/

theorem registeredB_false {s : BusState} {x : Nat} (h : registeredB s x = false) :
    x ∉ s.global_ids ∧ ∀ k, x ∉ s.kind_ids k := by
  have hnot : ¬ (x ∈ s.global_ids ∨ ∃ k, x ∈ s.kind_ids k) := by
    rw [← registeredB_true_iff]
    simp [h]
  push_neg at hnot
  exact hnot

theorem registeredB_publish (s : BusState) (e : PEvent) (x : Nat) :
    registeredB (publish s e).2 x = registeredB s x := by
  have hreg := publish_registry s e
  unfold registeredB
  rw [hreg.1]
  simp only [hreg.2.1]

theorem consumerPull_blocked {s : BusState} {sid now : Nat} {sub : Subscription}
    (hget : dictGet s.subs_by_id sid = some sub) (hq : sub.queue = []) :
    consumerPull s sid now = PullStep.blocked := by
  unfold consumerPull
  simp only [hget, hq]

theorem consumerPull_yields {s : BusState} {sid now : Nat} {sub : Subscription}
    {e : PEvent} {rest : List PEvent}
    (hget : dictGet s.subs_by_id sid = some sub) (hq : sub.queue = e :: rest) :
    consumerPull s sid now = PullStep.yields e
      { s with subs_by_id :=
          dictSet s.subs_by_id sid { sub with queue := rest, last_activity := now } } := by
  unfold consumerPull
  simp only [hget, hq, Subscription.update_activity]

theorem mem_allRegisteredIds {s : BusState} {x : Nat} :
    x ∈ allRegisteredIds s ↔ x ∈ s.global_ids ∨ ∃ k, x ∈ s.kind_ids k := by
  unfold allRegisteredIds allKinds
  simp only [List.foldr_cons, List.foldr_nil, List.mem_append, List.append_nil]
  constructor
  · rintro (h | h | h | h | h | h)
    · exact Or.inl h
    · exact Or.inr ⟨EventType.CREATED, h⟩
    · exact Or.inr ⟨EventType.UPDATED, h⟩
    · exact Or.inr ⟨EventType.DELETED, h⟩
    · exact Or.inr ⟨EventType.STATUS_CHANGED, h⟩
    · exact Or.inr ⟨EventType.BATCH_OPERATION, h⟩
  · rintro (h | ⟨k, hk⟩)
    · exact Or.inl h
    · cases k
      · exact Or.inr (Or.inl hk)
      · exact Or.inr (Or.inr (Or.inl hk))
      · exact Or.inr (Or.inr (Or.inr (Or.inl hk)))
      · exact Or.inr (Or.inr (Or.inr (Or.inr (Or.inl hk))))
      · exact Or.inr (Or.inr (Or.inr (Or.inr (Or.inr hk))))

theorem mem_staleIds {s : BusState} {now x : Nat} :
    x ∈ staleIds s now ↔
      ((x ∈ s.global_ids ∨ ∃ k, x ∈ s.kind_ids k) ∧ isStaleB s now x = true) := by
  unfold staleIds allKinds
  simp only [List.foldr_cons, List.foldr_nil, List.mem_append, List.append_nil,
    List.mem_filter]
  constructor
  · rintro (⟨h, hs⟩ | ⟨h, hs⟩ | ⟨h, hs⟩ | ⟨h, hs⟩ | ⟨h, hs⟩ | ⟨h, hs⟩)
    · exact ⟨Or.inl h, hs⟩
    · exact ⟨Or.inr ⟨EventType.CREATED, h⟩, hs⟩
    · exact ⟨Or.inr ⟨EventType.UPDATED, h⟩, hs⟩
    · exact ⟨Or.inr ⟨EventType.DELETED, h⟩, hs⟩
    · exact ⟨Or.inr ⟨EventType.STATUS_CHANGED, h⟩, hs⟩
    · exact ⟨Or.inr ⟨EventType.BATCH_OPERATION, h⟩, hs⟩
  · rintro ⟨h | ⟨k, hk⟩, hs⟩
    · exact Or.inl ⟨h, hs⟩
    · cases k
      · exact Or.inr (Or.inl ⟨hk, hs⟩)
      · exact Or.inr (Or.inr (Or.inl ⟨hk, hs⟩))
      · exact Or.inr (Or.inr (Or.inr (Or.inl ⟨hk, hs⟩)))
      · exact Or.inr (Or.inr (Or.inr (Or.inr (Or.inl ⟨hk, hs⟩))))
      · exact Or.inr (Or.inr (Or.inr (Or.inr (Or.inr ⟨hk, hs⟩))))

theorem stop_running (s : BusState) : (stop s).running = false := by
  unfold stop cleanup_all_subscriptions
  exact ((cleanupFold_stats _ _).1).trans rfl

theorem stop_subs (s : BusState) : (stop s).subs_by_id = s.subs_by_id := by
  unfold stop cleanup_all_subscriptions
  exact (cleanupFold_subs _ _).trans rfl

theorem stop_global (s : BusState) : (stop s).global_ids = [] := by
  unfold stop cleanup_all_subscriptions
  rw [List.eq_nil_iff_forall_not_mem]
  intro x hx
  rw [mem_global_cleanupFold] at hx
  exact hx.2 (mem_allRegisteredIds.mpr (Or.inl hx.1))

theorem stop_kind (s : BusState) (k : EventType) : (stop s).kind_ids k = [] := by
  unfold stop cleanup_all_subscriptions
  rw [List.eq_nil_iff_forall_not_mem]
  intro x hx
  rw [mem_kind_cleanupFold] at hx
  exact hx.2 (mem_allRegisteredIds.mpr (Or.inr ⟨k, hx.1⟩))

/-! ### Freshly subscribed ids occur at most once among any event's
candidate buckets (justifying the count-one hypotheses of the fan-out
theorems for every bus-generated registration) -/

theorem count_keyInsert_le {l : List Nat} {sid : Nat} (h : l.count sid ≤ 1) :
    (keyInsert l sid).count sid ≤ 1 := by
  unfold keyInsert
  split
  · exact h
  · rename_i hmem
    have h0 : l.count sid = 0 := List.count_eq_zero.2 hmem
    rw [List.count_append, h0]
    simp

theorem registerKinds_count_le {sid : Nat} {k : EventType} :
    ∀ (ets : List EventType) (f : EventType → List Nat),
      (f k).count sid ≤ 1 → ((registerKinds sid ets f) k).count sid ≤ 1 := by
  intro ets
  induction ets with
  | nil => exact fun f h => h
  | cons et rest ih =>
    intro f h
    unfold registerKinds
    apply ih
    by_cases hk : k = et
    · rw [if_pos hk]
      exact count_keyInsert_le h
    · rw [if_neg hk]
      exact h

/-- A subscription registered with a bus-generated (fresh) id occurs at
most once in the candidate list (global bucket plus any single kind
bucket) that a later `publish` walks — even when its interest list names
several kinds, or repeats a kind. -/
theorem subscribe_fresh_count (s : BusState) (ets : Option (List EventType))
    (fc : Option FilterCriteria) (now : Nat) (k : EventType)
    (hreg : registeredB s s.next_id = false) :
    ((subscribe s ets fc none now).2.global_ids
      ++ (subscribe s ets fc none now).2.kind_ids k).count s.next_id ≤ 1 := by
  have hout := registeredB_false hreg
  have hg0 : s.global_ids.count s.next_id = 0 := List.count_eq_zero.2 hout.1
  have hk0 : (s.kind_ids k).count s.next_id = 0 := List.count_eq_zero.2 (hout.2 k)
  cases ets with
  | none =>
    simp only [subscribe, Option.getD_none]
    rw [List.count_append, hk0]
    have h1 : (keyInsert s.global_ids s.next_id).count s.next_id ≤ 1 :=
      count_keyInsert_le (by omega)
    omega
  | some l =>
    simp only [subscribe, Option.getD_none]
    rw [List.count_append, hg0]
    have h1 : ((registerKinds s.next_id l s.kind_ids) k).count s.next_id ≤ 1 :=
      registerKinds_count_le l s.kind_ids (by omega)
    omega

/-! ### Concrete example data used by the claim witnesses -/

/-- Concrete CREATED event used in witnesses. -/
def evCreate : PEvent :=
  { event_id := "a", event_type := EventType.CREATED, entity_id := some "x",
    entity_data := none, timestamp := 1, metadata := [], user_id := none }

/-- Witness bus for C1: one subscription (id 0) with interest in two
kinds, empty criteria, on a started bus. -/
def sW1 : BusState :=
  (subscribe (start (mkBus 100 300))
    (some [EventType.CREATED, EventType.UPDATED]) none none 0).2

/-- Witness bus for C2: one global subscription (id 0) on a started bus. -/
def sX2 : BusState :=
  (subscribe (start (mkBus 100 300)) none none none 0).2

/-! ### Claim theorems -/

/-- C1: when the bus is running and subscription `sid` occurs exactly once
among the candidate buckets for `e` (the global bucket together with the
bucket of `e.event_type` — which is the case for every subscription id the
bus itself generated, however many kind buckets it is registered under),
and `e` passes its filter criteria and its queue has room, a single
`publish e` appends exactly one copy of `e` to its queue: the queue after
the call is the old queue extended by `[e]` — never unchanged and never
extended twice. -/
theorem claim_C1 (s : BusState) (e : PEvent) (sid : Nat) (sub : Subscription)
    (hrun : s.running = true)
    (hcand : (s.global_ids ++ s.kind_ids e.event_type).count sid = 1)
    (hget : dictGet s.subs_by_id sid = some sub)
    (hm : matches_filter e sub.filter_criteria = true)
    (hroom : ¬ (0 < s.max_queue_size ∧ s.max_queue_size ≤ sub.queue.length)) :
    dictGet (publish s e).2.subs_by_id sid
      = some { sub with queue := sub.queue ++ [e] } :=
  publish_delivers_once hrun hcand hget hm hroom

/-- Witness for C1 at a concrete bus: id 0 subscribed to CREATED and
UPDATED receives one CREATED event exactly once. -/
theorem claim_C1_witness :
    sW1.running = true ∧
    dictGet (publish sW1 evCreate).2.subs_by_id 0
      = some { subscription_id := 0, queue := [evCreate],
               filter_criteria := emptyCriteria, created_at := 0, last_activity := 0 } := by
  constructor
  · decide
  · exact claim_C1 sW1 evCreate 0
      { subscription_id := 0, queue := [], filter_criteria := emptyCriteria,
        created_at := 0, last_activity := 0 }
      (by decide) (by decide) (by decide) (by decide) (by decide)

/-- C2 (amended): after `stop()` the bus is not running, every
subscription has been removed from every bucket, and every subsequent
`publish` returns a delivered count of 0 and leaves the state untouched;
however a consumer whose queue is empty is NOT terminated — its next
pull still blocks (the source generator is a bare `while True` around
`queue.get()` and cleanup sends it no termination signal), so the
sequence ends only by consumer-side cancellation. -/
theorem claim_C2 (s : BusState) :
    (stop s).running = false ∧
    (stop s).global_ids = [] ∧
    (∀ k, (stop s).kind_ids k = []) ∧
    (∀ e, publish (stop s) e = (0, stop s)) ∧
    (∀ sid sub now, dictGet (stop s).subs_by_id sid = some sub → sub.queue = [] →
      consumerPull (stop s) sid now = PullStep.blocked) := by
  refine ⟨stop_running s, stop_global s, stop_kind s, ?_, ?_⟩
  · intro e
    exact publish_not_running (stop_running s)
  · intro sid sub now hget hq
    exact consumerPull_blocked hget hq

/-- Witness for C2 at a concrete bus: after stopping, the consumer of
subscription 0 is still blocked. -/
theorem claim_C2_witness :
    consumerPull (stop sX2) 0 9 = PullStep.blocked :=
  (claim_C2 sX2).2.2.2.2 0
    { subscription_id := 0, queue := [], filter_criteria := emptyCriteria,
      created_at := 0, last_activity := 0 }
    9 (by decide) (by decide)

/-- Counterexample for C2 as stated: after `stop()`, the consumer of the
live subscription id 0 does not terminate — its pull blocks, publishing
delivers 0 and leaves the state unchanged, and the pull still blocks
afterwards; nothing ever ends the sequence from the bus side. -/
theorem claim_C2_counterexample :
    consumerPull (stop sX2) 0 5 = PullStep.blocked ∧
    publish (stop sX2) evCreate = (0, stop sX2) ∧
    consumerPull (publish (stop sX2) evCreate).2 0 6 = PullStep.blocked :=
  ⟨rfl, rfl, rfl⟩

/-- C3: filter matching is a pure function that accepts exactly when
every present criterion is satisfied (kind membership, entity-id
membership, triggering-user equality, and per-key equality of every
declared attribute); the empty criteria accept every event; and during
`publish`, a subscription whose criteria reject the event keeps its
queue (indeed its whole heap entry) unchanged, regardless of the buckets
it is registered under. -/
theorem claim_C3 (e : PEvent) (fc : FilterCriteria) :
    (matches_filter e fc = true ↔
      ((∀ kinds, fc.event_types = some kinds → e.event_type ∈ kinds) ∧
       (∀ ids, fc.entity_ids = some ids → e.entity_id ∈ ids) ∧
       (∀ u, fc.user_id = some u → e.user_id = u) ∧
       (∀ m, fc.metadata = some m → ∀ p ∈ m, pyGet e.metadata p.1 = p.2))) ∧
    matches_filter e emptyCriteria = true ∧
    (∀ s sid sub, dictGet s.subs_by_id sid = some sub →
      matches_filter e sub.filter_criteria = false →
      dictGet (publish s e).2.subs_by_id sid = some sub) := by
  refine ⟨?_, rfl, ?_⟩
  · obtain ⟨et, ei, u, m⟩ := fc
    unfold matches_filter
    cases et <;> cases ei <;> cases u <;> cases m <;>
      simp [Bool.and_eq_true, decide_eq_true_eq, List.all_eq_true] <;>
      tauto
  · intro s sid sub hget hm
    exact publish_no_match hget hm

/-- Criteria accepting only UPDATED events (used in the C3 witness). -/
def fcUpdOnly : FilterCriteria :=
  { event_types := some [EventType.UPDATED], entity_ids := none,
    user_id := none, metadata := none }

/-- Witness bus for C3: id 0 subscribed to the CREATED bucket but with
criteria accepting only UPDATED events. -/
def sW3 : BusState :=
  (subscribe (start (mkBus 100 300)) (some [EventType.CREATED])
    (some fcUpdOnly) none 0).2

/-- Witness for C3: the empty criteria accept a concrete event, and a
concrete CREATED publish leaves untouched a subscription in the CREATED
bucket whose criteria only accept UPDATED. -/
theorem claim_C3_witness :
    matches_filter evCreate emptyCriteria = true ∧
    dictGet (publish sW3 evCreate).2.subs_by_id 0
      = some { subscription_id := 0, queue := [], filter_criteria := fcUpdOnly,
               created_at := 0, last_activity := 0 } := by
  constructor
  · exact (claim_C3 evCreate emptyCriteria).2.1
  · exact (claim_C3 evCreate fcUpdOnly).2.2 sW3 0
      { subscription_id := 0, queue := [], filter_criteria := fcUpdOnly,
        created_at := 0, last_activity := 0 }
      (by decide) (by decide)

/-- C4 (amended): for a matching subscription `sidF` whose queue is
already full, `_deliver_event` returns 0 and leaves the state — all
statistics counters included — completely unchanged (no exception; the
event is dropped for that subscriber only and the drop is only logged,
no counter records it), the whole `publish` leaves `sidF`'s entry
untouched, and a different matching subscription `sidO` with room still
receives the event in the same publish call. -/
theorem claim_C4 (s : BusState) (e : PEvent) (sidF sidO : Nat)
    (subF subO : Subscription)
    (hrun : s.running = true)
    (hFget : dictGet s.subs_by_id sidF = some subF)
    (hmF : matches_filter e subF.filter_criteria = true)
    (hfull : 0 < s.max_queue_size ∧ s.max_queue_size ≤ subF.queue.length)
    (hcO : (s.global_ids ++ s.kind_ids e.event_type).count sidO = 1)
    (hOget : dictGet s.subs_by_id sidO = some subO)
    (hmO : matches_filter e subO.filter_criteria = true)
    (hroomO : ¬ (0 < s.max_queue_size ∧ s.max_queue_size ≤ subO.queue.length)) :
    deliver_event s e sidF = (0, s) ∧
    dictGet (publish s e).2.subs_by_id sidF = some subF ∧
    dictGet (publish s e).2.subs_by_id sidO
      = some { subO with queue := subO.queue ++ [e] } :=
  ⟨deliver_event_full hFget hfull, publish_full hFget hfull,
    publish_delivers_once hrun hcO hOget hmO hroomO⟩

/-- Witness bus for C4: queue capacity 1; id 0 subscribed to CREATED and
already holding one event (full); id 1 subscribed to CREATED with an
empty queue. -/
def sW4 : BusState :=
  (subscribe (publish ((subscribe (start (mkBus 1 300))
      (some [EventType.CREATED]) none none 0).2) evCreate).2
    (some [EventType.CREATED]) none none 1).2

/-- Witness for C4: publishing to the concrete bus drops the event for
the full subscription 0 and still delivers it to subscription 1. -/
theorem claim_C4_witness :
    dictGet (publish sW4 evCreate).2.subs_by_id 0
      = some { subscription_id := 0, queue := [evCreate],
               filter_criteria := emptyCriteria, created_at := 0, last_activity := 0 } ∧
    dictGet (publish sW4 evCreate).2.subs_by_id 1
      = some { subscription_id := 1, queue := [evCreate],
               filter_criteria := emptyCriteria, created_at := 1, last_activity := 1 } := by
  have h := claim_C4 sW4 evCreate 0 1
    { subscription_id := 0, queue := [evCreate], filter_criteria := emptyCriteria,
      created_at := 0, last_activity := 0 }
    { subscription_id := 1, queue := [], filter_criteria := emptyCriteria,
      created_at := 1, last_activity := 1 }
    (by decide) (by decide) (by decide) (by decide) (by decide) (by decide)
    (by decide) (by decide)
  exact ⟨h.2.1, h.2.2⟩

/-- Counterexample for C4 as stated: on the concrete bus a genuine drop
occurs — capacity is 1, subscription 0's queue already holds one event,
and the event matches its (empty) criteria — yet the drop is NOT
counted anywhere: `_deliver_event` returns 0 with the state (every
statistics counter included) exactly unchanged, and after the whole
publish call the only counter changes are the per-call publish
increment and the single successful delivery to subscription 1; no
statistic records the drop (the source merely logs a warning on
`QueueFull`). -/
theorem claim_C4_counterexample :
    sW4.max_queue_size = 1 ∧
    (dictGet sW4.subs_by_id 0).map Subscription.queue = some [evCreate] ∧
    matches_filter evCreate emptyCriteria = true ∧
    deliver_event sW4 evCreate 0 = (0, sW4) ∧
    (publish sW4 evCreate).1 = 1 ∧
    (publish sW4 evCreate).2.subscriptions_cleaned = sW4.subscriptions_cleaned ∧
    (publish sW4 evCreate).2.subscriptions_created = sW4.subscriptions_created ∧
    (publish sW4 evCreate).2.events_published = sW4.events_published + 1 ∧
    (publish sW4 evCreate).2.total_deliveries = sW4.total_deliveries + 1 :=
  ⟨rfl, rfl, rfl, rfl, rfl, rfl, rfl, rfl, rfl⟩

/-- C5: unsubscribing a registered id succeeds exactly once: the first
call returns true, bumps the cleaned counter by exactly one (even for a
subscription registered under several buckets), and removes the id from
every bucket; a second call — or a call on any unregistered id — returns
false and leaves the state (registry and all counters) completely
unchanged; and after the first call no publish ever changes the
registration status or heap entry of that id again. -/
theorem claim_C5 (s : BusState) (sid : Nat)
    (hreg : registeredB s sid = true) :
    (unsubscribe s sid).1 = true ∧
    (unsubscribe s sid).2.subscriptions_cleaned = s.subscriptions_cleaned + 1 ∧
    (sid ∉ (unsubscribe s sid).2.global_ids ∧
      ∀ k, sid ∉ (unsubscribe s sid).2.kind_ids k) ∧
    unsubscribe (unsubscribe s sid).2 sid = (false, (unsubscribe s sid).2) ∧
    (∀ t x, registeredB t x = false → unsubscribe t x = (false, t)) ∧
    (∀ e, registeredB (publish (unsubscribe s sid).2 e).2 sid = false ∧
      dictGet (publish (unsubscribe s sid).2 e).2.subs_by_id sid
        = dictGet (unsubscribe s sid).2.subs_by_id sid) := by
  have hafter : registeredB (unsubscribe s sid).2 sid = false := by
    rw [show (unsubscribe s sid).2 = (cleanup_subscription s sid).2 from rfl,
      registeredB_cleanup]
    simp
  have hout := registeredB_false hafter
  refine ⟨?_, ?_, ?_, ?_, ?_, ?_⟩
  · rw [show (unsubscribe s sid).1 = (cleanup_subscription s sid).1 from rfl,
      cleanup_fst]
    exact hreg
  · rw [show (unsubscribe s sid).2 = (cleanup_subscription s sid).2 from rfl,
      cleanup_cleaned, if_pos hreg]
  · exact ⟨hout.1, hout.2⟩
  · exact cleanup_not_registered hafter
  · intro t x hx
    exact cleanup_not_registered hx
  · intro e
    refine ⟨?_, ?_⟩
    · rw [registeredB_publish]
      exact hafter
    · exact publish_subs_unregistered hout.1 (hout.2 e.event_type)

/-- Witness bus for C5: id 0 subscribed under two kind buckets. -/
def sW5 : BusState :=
  (subscribe (start (mkBus 100 300))
    (some [EventType.CREATED, EventType.DELETED]) none none 0).2

/-- Witness for C5: unsubscribing the concrete id 0 (registered under two
buckets) returns true and bumps the cleaned counter by exactly one. -/
theorem claim_C5_witness :
    (unsubscribe sW5 0).1 = true ∧
    (unsubscribe sW5 0).2.subscriptions_cleaned = sW5.subscriptions_cleaned + 1 := by
  have h := claim_C5 sW5 0 (by decide)
  exact ⟨h.1, h.2.1⟩

/-- C6: after one reaper pass at clock time `now`, every registered
subscription whose `last_activity` is older than `now - 2 *
cleanup_interval` has been removed from every bucket; every subscription
with more recent activity keeps its membership in every bucket; and the
cleaned counter has grown by exactly the number of distinct stale ids,
which (last conjunct) are exactly the registered subscriptions whose
staleness test passes. -/
theorem claim_C6 (s : BusState) (now : Nat) :
    (∀ sid sub, registeredB s sid = true →
      dictGet s.subs_by_id sid = some sub →
      (sub.last_activity : Int) < (now : Int) - (s.cleanup_interval : Int) * 2 →
      registeredB (cleanup_stale_subscriptions s now) sid = false) ∧
    (∀ sid sub, dictGet s.subs_by_id sid = some sub →
      ¬ ((sub.last_activity : Int) < (now : Int) - (s.cleanup_interval : Int) * 2) →
      ((sid ∈ (cleanup_stale_subscriptions s now).global_ids ↔ sid ∈ s.global_ids) ∧
       ∀ k, (sid ∈ (cleanup_stale_subscriptions s now).kind_ids k ↔ sid ∈ s.kind_ids k))) ∧
    (cleanup_stale_subscriptions s now).subscriptions_cleaned
      = s.subscriptions_cleaned + (staleIds s now).dedup.length ∧
    (∀ x, x ∈ (staleIds s now).dedup ↔
      (registeredB s x = true ∧ isStaleB s now x = true)) := by
  have hmemdedup : ∀ x, x ∈ (staleIds s now).dedup ↔
      (registeredB s x = true ∧ isStaleB s now x = true) := by
    intro x
    rw [List.mem_dedup, mem_staleIds, registeredB_true_iff]
  simp only [cleanup_stale_subscriptions]
  refine ⟨?_, ?_, ?_, hmemdedup⟩
  · intro sid sub hreg hget hlt
    have hstale : isStaleB s now sid = true := by
      unfold isStaleB
      rw [hget]
      simpa using hlt
    have hin : sid ∈ staleIds s now :=
      mem_staleIds.mpr ⟨registeredB_true_iff.1 hreg, hstale⟩
    cases hafter : registeredB (cleanupFold (staleIds s now) s) sid with
    | false => rfl
    | true =>
      exfalso
      rcases registeredB_true_iff.1 hafter with hg | ⟨k, hk⟩
      · exact (mem_global_cleanupFold.1 hg).2 hin
      · exact (mem_kind_cleanupFold.1 hk).2 hin
  · intro sid sub hget hnlt
    have hstale : isStaleB s now sid = false := by
      unfold isStaleB
      rw [hget]
      simpa using hnlt
    have hnin : sid ∉ staleIds s now := fun hh =>
      absurd (mem_staleIds.1 hh).2 (by simp [hstale])
    constructor
    · rw [mem_global_cleanupFold]
      exact ⟨fun h => h.1, fun h => ⟨h, hnin⟩⟩
    · intro k
      rw [mem_kind_cleanupFold]
      exact ⟨fun h => h.1, fun h => ⟨h, hnin⟩⟩
  · rw [cleanupFold_cleaned]
    congr 1
    have hfil : (staleIds s now).dedup.filter (registeredB s)
        = (staleIds s now).dedup := by
      apply List.filter_eq_self.2
      intro x hx
      exact ((hmemdedup x).1 hx).1
    rw [hfil]

/-- Witness bus for C6: cleanup interval 1; id 0 subscribed under two
kind buckets at time 0 (stale by time 10); id 1 subscribed globally at
time 10 (fresh). -/
def sW6 : BusState :=
  (subscribe ((subscribe (start (mkBus 100 1))
      (some [EventType.CREATED, EventType.UPDATED]) none none 0).2)
    none none none 10).2

/-- Witness for C6: one reaper pass at time 10 removes the stale id 0,
keeps the fresh id 1, and bumps the cleaned counter by the number of
distinct stale ids. -/
theorem claim_C6_witness :
    registeredB (cleanup_stale_subscriptions sW6 10) 0 = false ∧
    (1 ∈ (cleanup_stale_subscriptions sW6 10).global_ids ↔ 1 ∈ sW6.global_ids) ∧
    (cleanup_stale_subscriptions sW6 10).subscriptions_cleaned
      = sW6.subscriptions_cleaned + (staleIds sW6 10).dedup.length := by
  have h := claim_C6 sW6 10
  refine ⟨?_, ?_, h.2.2.1⟩
  · exact h.1 0
      { subscription_id := 0, queue := [], filter_criteria := emptyCriteria,
        created_at := 0, last_activity := 0 }
      (by decide) (by decide) (by decide)
  · exact (h.2.1 1
      { subscription_id := 1, queue := [], filter_criteria := emptyCriteria,
        created_at := 10, last_activity := 10 }
      (by decide) (by decide)).1

/-- C7 (amended): `publish` never changes any subscription's
`last_activity` — even on a successful delivery it only appends to the
queue (the source `_deliver_event` contains no `update_activity` call) —
while a consumer pull always refreshes `last_activity` to the pull
time. -/
theorem claim_C7 (s : BusState) :
    (∀ e sid, subMeta (dictGet (publish s e).2.subs_by_id sid)
        = subMeta (dictGet s.subs_by_id sid)) ∧
    (∀ sid now sub e rest, dictGet s.subs_by_id sid = some sub →
      sub.queue = e :: rest →
      consumerPull s sid now = PullStep.yields e
        { s with subs_by_id :=
            dictSet s.subs_by_id sid { sub with queue := rest, last_activity := now } }) := by
  refine ⟨?_, ?_⟩
  · intro e sid
    exact publish_meta s e sid
  · intro sid now sub e rest hget hq
    exact consumerPull_yields hget hq

/-- Witness bus for C7: id 0 subscribed to CREATED at time 0. -/
def sW7 : BusState :=
  (subscribe (start (mkBus 100 300)) (some [EventType.CREATED]) none none 0).2

/-- The C7 witness bus after one successful delivery. -/
def sW7p : BusState := (publish sW7 evCreate).2

/-- Witness for C7: delivery to the concrete bus preserves the metadata
(including `last_activity`), and a subsequent consumer pull at time 42
refreshes `last_activity` to 42. -/
theorem claim_C7_witness :
    subMeta (dictGet (publish sW7 evCreate).2.subs_by_id 0)
      = subMeta (dictGet sW7.subs_by_id 0) ∧
    consumerPull sW7p 0 42 = PullStep.yields evCreate
      ({ sW7p with subs_by_id := dictSet sW7p.subs_by_id 0 { subscription_id := 0, queue := [], filter_criteria := emptyCriteria, created_at := 0, last_activity := 42 } }) := by
  refine ⟨(claim_C7 sW7).1 evCreate 0, ?_⟩
  exact (claim_C7 sW7p).2 0 42
    { subscription_id := 0, queue := [evCreate], filter_criteria := emptyCriteria,
      created_at := 0, last_activity := 0 }
    evCreate [] (by decide) (by decide)

/-- Counterexample for C7 as stated: on the concrete bus, `publish`
successfully delivers one event (delivered count 1), yet the
subscription's `last_activity` is exactly the subscribe-time value 0
before and after the call — the successful enqueue did not refresh
it. -/
theorem claim_C7_counterexample :
    (publish sW7 evCreate).1 = 1 ∧
    (dictGet sW7.subs_by_id 0).map Subscription.last_activity = some 0 ∧
    (dictGet (publish sW7 evCreate).2.subs_by_id 0).map Subscription.last_activity
      = some 0 :=
  ⟨rfl, rfl, rfl⟩

/-- C8 (amended): a publish on a running bus increments
`events_published` by exactly one regardless of the delivered count and
adds exactly the delivered count to `total_deliveries`; a publish on a
non-running bus returns 0 and leaves the state — all counters included —
completely unchanged (the drop is only logged, no counter records
it). -/
theorem claim_C8 (s : BusState) (e : PEvent) :
    (s.running = true →
      (publish s e).2.events_published = s.events_published + 1 ∧
      (publish s e).2.total_deliveries = s.total_deliveries + (publish s e).1) ∧
    (s.running = false → publish s e = (0, s)) :=
  ⟨fun h => publish_counts h, fun h => publish_not_running h⟩

/-- Witness for C8: a publish on a concrete running bus increments the
published counter; a publish on a concrete non-running bus returns 0
and changes nothing. -/
theorem claim_C8_witness :
    (publish (start (mkBus 100 300)) evCreate).2.events_published
      = (start (mkBus 100 300)).events_published + 1 ∧
    publish (mkBus 50 60) evCreate = (0, mkBus 50 60) :=
  ⟨((claim_C8 (start (mkBus 100 300)) evCreate).1 (by decide)).1,
    (claim_C8 (mkBus 50 60) evCreate).2 (by decide)⟩

/-- Counterexample for C8 as stated: a publish on a fresh (never
started) bus returns 0 and leaves `events_published` at 0 — it is not
incremented, contradicting the claim that every publish call increments
it. -/
theorem claim_C8_counterexample :
    publish (mkBus 100 300) evCreate = (0, mkBus 100 300) ∧
    (publish (mkBus 100 300) evCreate).2.events_published = 0 ∧
    ¬ ((publish (mkBus 100 300) evCreate).2.events_published
        = (mkBus 100 300).events_published + 1) :=
  ⟨rfl, rfl, by decide⟩

/-- C9 (amended): when the bus generates the subscription id itself
(`subscription_id` not supplied), the returned id is fresh — distinct
from every id previously handed out (ids are never reused, even after
the subscription is destroyed: `unsubscribe` never shrinks the issued
ledger or the counter) — and registering the new subscription never
replaces or evicts any existing heap entry or registration.  (With a
caller-supplied duplicate id, registration does silently replace the
existing bucket entry — see the counterexample.) -/
theorem claim_C9 (s : BusState) (ets : Option (List EventType))
    (fc : Option FilterCriteria) (now : Nat)
    (hissued : s.next_id ∉ s.issued)
    (hheap : dictGet s.subs_by_id s.next_id = none) :
    (subscribe s ets fc none now).1 = s.next_id ∧
    (subscribe s ets fc none now).1 ∉ s.issued ∧
    (subscribe s ets fc none now).2.issued = s.next_id :: s.issued ∧
    (subscribe s ets fc none now).2.next_id = s.next_id + 1 ∧
    (∀ i sub, dictGet s.subs_by_id i = some sub →
      dictGet (subscribe s ets fc none now).2.subs_by_id i = some sub) ∧
    (∀ i, registeredB s i = true →
      registeredB (subscribe s ets fc none now).2 i = true) ∧
    (∀ x, (unsubscribe s x).2.issued = s.issued ∧
      (unsubscribe s x).2.next_id = s.next_id) := by
  refine ⟨?_, ?_, ?_, ?_, ?_, ?_, ?_⟩
  · cases ets <;> rfl
  · have h1 : (subscribe s ets fc none now).1 = s.next_id := by cases ets <;> rfl
    rw [h1]
    exact hissued
  · cases ets <;> rfl
  · cases ets <;> rfl
  · intro i sub hget
    have hne : i ≠ s.next_id := by
      intro hh
      rw [hh, hheap] at hget
      cases hget
    cases ets <;>
      · simp only [subscribe, Option.getD_none]
        rw [dictGet_set_ne hne]
        exact hget
  · intro i hi
    rw [registeredB_true_iff] at hi
    cases ets with
    | none =>
      simp only [subscribe]
      rw [registeredB_true_iff]
      rcases hi with hg | ⟨k, hk⟩
      · exact Or.inl (mem_keyInsert.mpr (Or.inl hg))
      · exact Or.inr ⟨k, hk⟩
    | some l =>
      simp only [subscribe]
      rw [registeredB_true_iff]
      rcases hi with hg | ⟨k, hk⟩
      · exact Or.inl hg
      · exact Or.inr ⟨k, mem_registerKinds.mpr (Or.inl hk)⟩
  · intro x
    have hs := cleanup_stats s x
    exact ⟨hs.2.2.2.2.1, hs.2.2.2.1⟩

/-- Witness for C9: on a concrete fresh bus the generated id equals the
ghost counter and the counter advances. -/
theorem claim_C9_witness :
    (subscribe (start (mkBus 100 300)) (some [EventType.CREATED]) none none 0).1
      = (start (mkBus 100 300)).next_id ∧
    (subscribe (start (mkBus 100 300)) (some [EventType.CREATED]) none none 0).2.next_id
      = (start (mkBus 100 300)).next_id + 1 := by
  have h := claim_C9 (start (mkBus 100 300)) (some [EventType.CREATED]) none 0
    (by decide) (by decide)
  exact ⟨h.1, h.2.2.2.1⟩

/-- First of two subscribe calls that supply the same custom id 7. -/
def sX9 : BusState :=
  (subscribe (start (mkBus 100 300)) (some [EventType.CREATED]) none (some 7) 0).2

/-- Counterexample for C9 as stated: two subscribe calls (with a
caller-supplied id, which the source accepts) return the SAME id 7, and
the second registration silently replaces the first in the CREATED
bucket: only one entry for id 7 remains and its subscription object is
the second one (created at time 1, not 0). -/
theorem claim_C9_counterexample :
    (subscribe (start (mkBus 100 300)) (some [EventType.CREATED]) none (some 7) 0).1 = 7 ∧
    (subscribe sX9 (some [EventType.CREATED]) none (some 7) 1).1 = 7 ∧
    (subscribe sX9 (some [EventType.CREATED]) none (some 7) 1).2.kind_ids
      EventType.CREATED = [7] ∧
    dictGet (subscribe sX9 (some [EventType.CREATED]) none (some 7) 1).2.subs_by_id 7
      = some { subscription_id := 7, queue := [], filter_criteria := emptyCriteria,
               created_at := 1, last_activity := 1 } :=
  ⟨rfl, rfl, by decide, by decide⟩

/-- C10: subscribing with a present-but-empty interest list (an empty
list of kinds, rather than an absent one) still bumps the created
counter and creates the subscription object, but registers it in no
bucket at all: it is unregistered, no publish ever touches its heap
entry, and unsubscribing it returns false leaving the state exactly as
it was. -/
theorem claim_C10 (s : BusState) (fc : Option FilterCriteria) (now : Nat)
    (hreg : registeredB s s.next_id = false) :
    (subscribe s (some []) fc none now).1 = s.next_id ∧
    (subscribe s (some []) fc none now).2.subscriptions_created
      = s.subscriptions_created + 1 ∧
    registeredB (subscribe s (some []) fc none now).2 s.next_id = false ∧
    dictGet (subscribe s (some []) fc none now).2.subs_by_id s.next_id
      = some { subscription_id := s.next_id, queue := [],
               filter_criteria := fc.getD emptyCriteria,
               created_at := now, last_activity := now } ∧
    (∀ e, dictGet (publish (subscribe s (some []) fc none now).2 e).2.subs_by_id s.next_id
      = dictGet (subscribe s (some []) fc none now).2.subs_by_id s.next_id) ∧
    unsubscribe (subscribe s (some []) fc none now).2 s.next_id
      = (false, (subscribe s (some []) fc none now).2) := by
  have hregsame : registeredB (subscribe s (some []) fc none now).2 s.next_id
      = registeredB s s.next_id := rfl
  have hregafter : registeredB (subscribe s (some []) fc none now).2 s.next_id = false :=
    hregsame.trans hreg
  have hout := registeredB_false hregafter
  refine ⟨rfl, rfl, hregafter, ?_, ?_, ?_⟩
  · exact dictGet_set_self
  · intro e
    exact publish_subs_unregistered hout.1 (hout.2 e.event_type)
  · exact cleanup_not_registered hregafter

/-- Witness bus for C10: one subscription created with an empty interest
list. -/
def sW10 : BusState :=
  (subscribe (start (mkBus 100 300)) (some []) none none 5).2

/-- Witness for C10: on the concrete bus the empty-interest subscription
is registered nowhere and its unsubscribe returns false without
changing anything. -/
theorem claim_C10_witness :
    registeredB sW10 0 = false ∧ unsubscribe sW10 0 = (false, sW10) := by
  have h := claim_C10 (start (mkBus 100 300)) none 5 (by decide)
  exact ⟨h.2.2.1, h.2.2.2.2.2⟩

end EventBus
